import Mathlib

/-!
Shallow embedding of the rvemu virtio block device (`src/devices/virtio.rs`)
and of the emulator run loop (`src/emulator.rs`), together with theorems about
the device register interface, the DMA transfer protocol, the disk backing
store, and the execution loop.

Conventions of the embedding:
* machine integers are `Nat`; 64-bit wrap-around (`wrapping_add`, release-mode
  `u64` arithmetic) is written explicitly as `% W` with `W = 2 ^ 64`;
  additions whose operands are bounded fields (32-bit PFN times 32-bit page
  size plus small offsets) cannot overflow `u64` and are left as exact `Nat`
  arithmetic;
* fallible operations return `Option`; a `Vec` index panic is modelled as the
  `none` branch of the disk accessors;
* the memory bus, processor and exception modules of the repository are not
  part of the two source files and are modelled from the spec where noted.
-/

/-- Wrap-around modulus of 64-bit unsigned arithmetic. -/
def W : Nat := 2 ^ 64

/-- Modelled from the spec: the fixed device base address (`VIRTIO_BASE`).
The bus module defining it is an external collaborator; every register is
addressed at a fixed offset from this base. -/
def VIRTIO_BASE : Nat := 0x10001000

/-- Magic value register address. -/
def VIRTIO_MAGIC : Nat := VIRTIO_BASE + 0x000

/-- Device version number register address. -/
def VIRTIO_VERSION : Nat := VIRTIO_BASE + 0x004

/-- Virtio subsystem device id register address. -/
def VIRTIO_DEVICE_ID : Nat := VIRTIO_BASE + 0x008

/-- Virtio subsystem vendor id register address. -/
def VIRTIO_VENDOR_ID : Nat := VIRTIO_BASE + 0x00c

/-- Device features register address. -/
def VIRTIO_DEVICE_FEATURES : Nat := VIRTIO_BASE + 0x010

/-- Driver features register address. -/
def VIRTIO_DRIVER_FEATURES : Nat := VIRTIO_BASE + 0x020

/-- Guest page size register address. -/
def VIRTIO_GUEST_PAGE_SIZE : Nat := VIRTIO_BASE + 0x028

/-- Queue select register address. -/
def VIRTIO_QUEUE_SEL : Nat := VIRTIO_BASE + 0x030

/-- Maximum queue size register address. -/
def VIRTIO_QUEUE_NUM_MAX : Nat := VIRTIO_BASE + 0x034

/-- Queue size register address. -/
def VIRTIO_QUEUE_NUM : Nat := VIRTIO_BASE + 0x038

/-- Queue page frame number register address. -/
def VIRTIO_QUEUE_PFN : Nat := VIRTIO_BASE + 0x040

/-- Queue notify register address. -/
def VIRTIO_QUEUE_NOTIFY : Nat := VIRTIO_BASE + 0x050

/-- Device status register address. -/
def VIRTIO_STATUS : Nat := VIRTIO_BASE + 0x070

/-- The size of the `VRingDesc` struct (bytes). -/
def VRING_DESC_SIZE : Nat := 16

/-- The number of virtio descriptors. -/
def QUEUE_SIZE : Nat := 8

/-- The size of a sector (bytes). -/
def SECTOR_SIZE : Nat := 512

/-- Modelled from the spec: guest memory as seen through the memory-mapped
bus, a flat byte store addressed from 0; an access outside it is a bus fault
(`none`).  The bus module itself is an external collaborator of the two
source files. -/
abbrev Mem : Type := List Nat

/-- Single-byte bus read; `% 256` is the `u8` to `u64` view of a stored byte. -/
def read8 (m : Mem) (addr : Nat) : Option Nat :=
  (m.get? addr).map fun b => b % 256

/-- Two-byte little-endian bus read. -/
def read16 (m : Mem) (addr : Nat) : Option Nat :=
  (read8 m addr).bind fun b0 =>
  (read8 m (addr + 1)).map fun b1 => b0 + 2 ^ 8 * b1

/-- Four-byte little-endian bus read. -/
def read32 (m : Mem) (addr : Nat) : Option Nat :=
  (read8 m addr).bind fun b0 =>
  (read8 m (addr + 1)).bind fun b1 =>
  (read8 m (addr + 2)).bind fun b2 =>
  (read8 m (addr + 3)).map fun b3 =>
    b0 + 2 ^ 8 * b1 + 2 ^ 16 * b2 + 2 ^ 24 * b3

/-- Eight-byte little-endian bus read. -/
def read64 (m : Mem) (addr : Nat) : Option Nat :=
  (read8 m addr).bind fun b0 =>
  (read8 m (addr + 1)).bind fun b1 =>
  (read8 m (addr + 2)).bind fun b2 =>
  (read8 m (addr + 3)).bind fun b3 =>
  (read8 m (addr + 4)).bind fun b4 =>
  (read8 m (addr + 5)).bind fun b5 =>
  (read8 m (addr + 6)).bind fun b6 =>
  (read8 m (addr + 7)).map fun b7 =>
    b0 + 2 ^ 8 * b1 + 2 ^ 16 * b2 + 2 ^ 24 * b3 +
      2 ^ 32 * b4 + 2 ^ 40 * b5 + 2 ^ 48 * b6 + 2 ^ 56 * b7

/-- Single-byte bus write; the stored value is the low byte. -/
def write8 (m : Mem) (addr value : Nat) : Option Mem :=
  if addr < m.length then some (m.set addr (value % 256)) else none

/-- Two-byte little-endian bus write. -/
def write16 (m : Mem) (addr value : Nat) : Option Mem :=
  if addr + 1 < m.length then
    some ((m.set addr (value % 256)).set (addr + 1) (value / 2 ^ 8 % 256))
  else none

/-- One virtqueue descriptor (`struct VirtqDesc` of `src/devices/virtio.rs`):
the four fields are stored widened to `u64` in the source. -/
structure VirtqDesc where
  addr : Nat
  len : Nat
  flags : Nat
  next : Nat
  deriving DecidableEq

/-- `VirtqDesc::new`: decode a descriptor from the 16 bytes at `addr`
(`read64` at `+0`, `read32` at `+8`, `read16` at `+12` and `+14`, the offsets
formed with `wrapping_add`). -/
def VirtqDesc.new (m : Mem) (addr : Nat) : Option VirtqDesc :=
  (read64 m addr).bind fun a =>
  (read32 m ((addr + 8) % W)).bind fun l =>
  (read16 m ((addr + 12) % W)).bind fun f =>
  (read16 m ((addr + 14) % W)).map fun n =>
    { addr := a, len := l, flags := f, next := n }

/-- The virtio device state (`struct Virtio`). The disk backing store is the
byte sequence `disk` (a `Vec<u8>` in the source). -/
structure Virtio where
  id : Nat
  driver_features : Nat
  page_size : Nat
  queue_sel : Nat
  queue_num : Nat
  queue_pfn : Nat
  queue_notify : Nat
  status : Nat
  disk : List Nat
  deriving DecidableEq

/-- `Virtio::new`: all fields zero except `queue_notify`, initialised to the
sentinel 9999, and an empty disk. -/
def Virtio.new : Virtio :=
  { id := 0, driver_features := 0, page_size := 0, queue_sel := 0,
    queue_num := 0, queue_pfn := 0, queue_notify := 9999, status := 0,
    disk := [] }

/-- `Virtio::is_interrupting`: edge-triggered query on the notify-pending
indicator; returns the flag together with the mutated device. -/
def Virtio.is_interrupting (v : Virtio) : Bool × Virtio :=
  if v.queue_notify ≠ 9999 then (true, { v with queue_notify := 9999 })
  else (false, v)

/-- `Virtio::set_disk`: append a binary image to the disk backing store. -/
def Virtio.set_disk (v : Virtio) (binary : List Nat) : Virtio :=
  { v with disk := v.disk ++ binary }

/-- `Virtio::read`: 4-byte register read; unknown addresses return 0. -/
def Virtio.read (v : Virtio) (addr : Nat) : Nat :=
  if addr = VIRTIO_MAGIC then 0x74726976
  else if addr = VIRTIO_VERSION then 0x1
  else if addr = VIRTIO_DEVICE_ID then 0x2
  else if addr = VIRTIO_VENDOR_ID then 0x554d4551
  else if addr = VIRTIO_DEVICE_FEATURES then 0
  else if addr = VIRTIO_DRIVER_FEATURES then v.driver_features
  else if addr = VIRTIO_QUEUE_NUM_MAX then 8
  else if addr = VIRTIO_QUEUE_PFN then v.queue_pfn
  else if addr = VIRTIO_STATUS then v.status
  else 0

/-- `Virtio::write`: 4-byte register write; unknown addresses are no-ops.
Note the source stores `driver_features` on a write to the Device Features
address and has no arm for the Driver Features address. -/
def Virtio.write (v : Virtio) (addr val : Nat) : Virtio :=
  if addr = VIRTIO_DEVICE_FEATURES then { v with driver_features := val }
  else if addr = VIRTIO_GUEST_PAGE_SIZE then { v with page_size := val }
  else if addr = VIRTIO_QUEUE_SEL then { v with queue_sel := val }
  else if addr = VIRTIO_QUEUE_NUM then { v with queue_num := val }
  else if addr = VIRTIO_QUEUE_PFN then { v with queue_pfn := val }
  else if addr = VIRTIO_QUEUE_NOTIFY then { v with queue_notify := val }
  else if addr = VIRTIO_STATUS then { v with status := val }
  else v

/-- `Virtio::get_new_id`: increment the request id with wrapping `u64`
arithmetic and return it. -/
def Virtio.get_new_id (v : Virtio) : Nat × Virtio :=
  ((v.id + 1) % W, { v with id := (v.id + 1) % W })

/-- `Virtio::desc_addr`: `queue_pfn as u64 * page_size as u64`; both factors
are 32-bit fields, so the product cannot overflow `u64`. -/
def Virtio.desc_addr (v : Virtio) : Nat := v.queue_pfn * v.page_size

/-- `Virtio::read_disk`: `self.disk[addr] as u64`; an out-of-bounds index is
a `Vec` index panic, modelled as `none`. -/
def read_disk (disk : List Nat) (addr : Nat) : Option Nat :=
  (disk.get? addr).map fun b => b % 256

/-- `Virtio::write_disk`: `self.disk[addr] = value as u8`; an out-of-bounds
index is a `Vec` index panic, modelled as `none`. -/
def write_disk (disk : List Nat) (addr value : Nat) : Option (List Nat) :=
  if addr < disk.length then some (disk.set addr (value % 256)) else none

/-- Outcome of a disk transfer: `ok`, a propagated bus exception (`Err` in
the source), or a process-aborting panic of the disk accessors. -/
inductive DResult
  | ok
  | exception
  | panic
  deriving DecidableEq

/-- The guest-to-disk copy loop of `Virtio::disk_access` (`for i in
0..desc1.len`, reading `read8(desc1.addr + i)` and writing
`write_disk(sector * 512 + i, data)`); on a failure the bytes already written
persist, matching the in-place mutation of the source.  `i` is the next index
and the last argument counts the remaining iterations. -/
def disk_write_loop (m : Mem) (addr sbase : Nat) :
    List Nat → Nat → Nat → List Nat × DResult
  | disk, _, 0 => (disk, DResult.ok)
  | disk, i, rem + 1 =>
    match read8 m ((addr + i) % W) with
    | none => (disk, DResult.exception)
    | some data =>
      match write_disk disk ((sbase + i) % W) data with
      | none => (disk, DResult.panic)
      | some disk' => disk_write_loop m addr sbase disk' (i + 1) rem

/-- The disk-to-guest copy loop of `Virtio::disk_access` (`for i in
0..desc1.len`, reading `read_disk(sector * 512 + i)` and writing
`write8(desc1.addr + i, data)`); on a failure the bytes already written
persist. -/
def disk_read_loop (disk : List Nat) (addr sbase : Nat) :
    Mem → Nat → Nat → Mem × DResult
  | m, _, 0 => (m, DResult.ok)
  | m, i, rem + 1 =>
    match read_disk disk ((sbase + i) % W) with
    | none => (m, DResult.panic)
    | some data =>
      match write8 m ((addr + i) % W) data with
      | none => (m, DResult.exception)
      | some m' => disk_read_loop disk addr sbase m' (i + 1) rem

/-- Modelled from the spec: the processor context handed to
`Virtio::disk_access` — guest memory reached through the bus, plus the device
itself (the cpu and bus modules are external collaborators). -/
structure Cpu where
  mem : Mem
  virtio : Virtio
  deriving DecidableEq

/-- `Virtio::disk_access`: walk the available ring, load the two-descriptor
chain, copy between guest memory and the disk, then advance the used ring.
Failure results carry the state as mutated so far (the source mutates the cpu
in place and propagates `Err` with `?`). -/
def Virtio.disk_access (cpu : Cpu) : Cpu × DResult :=
  let desc_addr := cpu.virtio.desc_addr
  let avail_addr := desc_addr + 0x40
  let used_addr := desc_addr + 4096
  match read16 cpu.mem ((avail_addr + 1) % W) with
  | none => (cpu, DResult.exception)
  | some offset =>
    match read16 cpu.mem ((avail_addr + offset % QUEUE_SIZE + 2) % W) with
    | none => (cpu, DResult.exception)
    | some index =>
      match VirtqDesc.new cpu.mem (desc_addr + VRING_DESC_SIZE * index) with
      | none => (cpu, DResult.exception)
      | some desc0 =>
        match VirtqDesc.new cpu.mem (desc_addr + VRING_DESC_SIZE * desc0.next) with
        | none => (cpu, DResult.exception)
        | some desc1 =>
          match read64 cpu.mem ((desc0.addr + 8) % W) with
          | none => (cpu, DResult.exception)
          | some sector =>
            match (if desc1.flags &&& 2 = 0 then
                match disk_write_loop cpu.mem desc1.addr (sector * SECTOR_SIZE)
                    cpu.virtio.disk 0 desc1.len with
                | (dk, r) => (Cpu.mk cpu.mem { cpu.virtio with disk := dk }, r)
              else
                match disk_read_loop cpu.virtio.disk desc1.addr
                    (sector * SECTOR_SIZE) cpu.mem 0 desc1.len with
                | (m', r) => (Cpu.mk m' cpu.virtio, r)) with
            | (cpu1, DResult.ok) =>
              let new_id := (cpu1.virtio.id + 1) % W
              match write16 cpu1.mem (used_addr + 2) (new_id % 8) with
              | none =>
                (Cpu.mk cpu1.mem { cpu1.virtio with id := new_id },
                  DResult.exception)
              | some m1 =>
                (Cpu.mk m1 { cpu1.virtio with id := new_id }, DResult.ok)
            | (cpu1, r) => (cpu1, r)

/-- Follows the words of claim C4: the head-descriptor index is obtained by
reading the 16-bit ring fill index at `avail_base + 1` (the available ring
begins 0x40 bytes after the descriptor table), and reading the 16-bit slot at
`avail_base + (fill mod 8) + 2`, unscaled by the 2-byte ring-entry size. -/
def avail_head_index (m : Mem) (desc_addr : Nat) : Option Nat :=
  (read16 m ((desc_addr + 0x40 + 1) % W)).bind fun fill =>
  read16 m ((desc_addr + 0x40 + fill % 8 + 2) % W)

/-- Follows the words of claim C3: descriptor 0 is decoded from the 16 bytes
at `desc_addr + 16 * i`, descriptor 1 at `desc_addr + 16 * desc0.next`, and
the 64-bit sector number is read at `desc0.addr + 8`; nothing further is
loaded. -/
def header_loads (m : Mem) (desc_addr i : Nat) :
    Option (VirtqDesc × VirtqDesc × Nat) :=
  (VirtqDesc.new m (desc_addr + 16 * i)).bind fun d0 =>
  (VirtqDesc.new m (desc_addr + 16 * d0.next)).bind fun d1 =>
  (read64 m ((d0.addr + 8) % W)).map fun sector => (d0, d1, sector)

/-- The tail of `Virtio::disk_access` once the head-descriptor index is
fixed: load the two descriptors and the sector, copy, advance the used
ring. -/
def rest_after_head (cpu : Cpu) (index : Nat) : Cpu × DResult :=
  let desc_addr := cpu.virtio.desc_addr
  let used_addr := desc_addr + 4096
  match VirtqDesc.new cpu.mem (desc_addr + VRING_DESC_SIZE * index) with
  | none => (cpu, DResult.exception)
  | some desc0 =>
    match VirtqDesc.new cpu.mem (desc_addr + VRING_DESC_SIZE * desc0.next) with
    | none => (cpu, DResult.exception)
    | some desc1 =>
      match read64 cpu.mem ((desc0.addr + 8) % W) with
      | none => (cpu, DResult.exception)
      | some sector =>
        match (if desc1.flags &&& 2 = 0 then
            match disk_write_loop cpu.mem desc1.addr (sector * SECTOR_SIZE)
                cpu.virtio.disk 0 desc1.len with
            | (dk, r) => (Cpu.mk cpu.mem { cpu.virtio with disk := dk }, r)
          else
            match disk_read_loop cpu.virtio.disk desc1.addr
                (sector * SECTOR_SIZE) cpu.mem 0 desc1.len with
            | (m', r) => (Cpu.mk m' cpu.virtio, r)) with
        | (cpu1, DResult.ok) =>
          let new_id := (cpu1.virtio.id + 1) % W
          match write16 cpu1.mem (used_addr + 2) (new_id % 8) with
          | none =>
            (Cpu.mk cpu1.mem { cpu1.virtio with id := new_id },
              DResult.exception)
          | some m1 =>
            (Cpu.mk m1 { cpu1.virtio with id := new_id }, DResult.ok)
        | (cpu1, r) => (cpu1, r)

/-- The tail of `Virtio::disk_access` once the data descriptor and the sector
number are fixed: copy in the direction selected by bit 1 of the flags, then
advance the used ring. -/
def after_descs (cpu : Cpu) (desc1 : VirtqDesc) (sector : Nat) :
    Cpu × DResult :=
  let used_addr := cpu.virtio.desc_addr + 4096
  match (if desc1.flags &&& 2 = 0 then
      match disk_write_loop cpu.mem desc1.addr (sector * SECTOR_SIZE)
          cpu.virtio.disk 0 desc1.len with
      | (dk, r) => (Cpu.mk cpu.mem { cpu.virtio with disk := dk }, r)
    else
      match disk_read_loop cpu.virtio.disk desc1.addr
          (sector * SECTOR_SIZE) cpu.mem 0 desc1.len with
      | (m', r) => (Cpu.mk m' cpu.virtio, r)) with
  | (cpu1, DResult.ok) =>
    let new_id := (cpu1.virtio.id + 1) % W
    match write16 cpu1.mem (used_addr + 2) (new_id % 8) with
    | none =>
      (Cpu.mk cpu1.mem { cpu1.virtio with id := new_id }, DResult.exception)
    | some m1 => (Cpu.mk m1 { cpu1.virtio with id := new_id }, DResult.ok)
  | (cpu1, r) => (cpu1, r)

/-- Concrete guest memory for the transfer witnesses: descriptor table at 0,
descriptor 0 with request header at 100 and `next = 1`, descriptor 1 with a
2-byte data buffer at 200 holding `171, 205`, available ring selecting head
0, sector 0. -/
def mem0 : Mem :=
  ((((((List.replicate 4100 0).set 0 100).set 14 1).set 16 200).set
    24 2).set 200 171).set 201 205

/-- Concrete device for the transfer witnesses: fresh device with a 4-byte
disk. -/
def vio0 : Virtio := { Virtio.new with disk := [7, 7, 7, 7] }

/-- Concrete processor context for the transfer witnesses. -/
def cpu0 : Cpu := { mem := mem0, virtio := vio0 }

/-- Request-header descriptor of the concrete transfer scenario. -/
def d0c : VirtqDesc := ⟨100, 0, 0, 1⟩

/-- Data descriptor of the concrete transfer scenario: 2 bytes at guest
address 200, device-readable (guest-to-disk direction). -/
def d1c : VirtqDesc := ⟨200, 2, 0, 0⟩

/-- Modelled from the spec: the outcome of trap classification (`Trap` of the
exception module, an external collaborator); only the fatal/non-fatal
distinction drives the loop, `requested` is the dummy trap returned after a
successful tick. -/
inductive Trap
  | requested
  | fatal
  | handled

/-- The interrupt-delivery step of one cycle of `Emulator::start`: poll for a
pending interrupt and deliver it through the trap-taking mechanism.  The
processor context is abstract (`σ`), its operations are parameters. -/
def interrupt_step {σ ι : Type} (check_pending_interrupt : σ → Option ι)
    (take_interrupt_trap : ι → σ → σ) (s : σ) : σ :=
  match check_pending_interrupt s with
  | some interrupt => take_interrupt_trap interrupt s
  | none => s

/-- The body of one cycle of `Emulator::start` after the test-mode check:
interrupt delivery, timer increment, one fetch-decode-execute tick; a
successful tick yields the dummy `requested` trap, a failing tick converts
the exception through `take_exception_trap`. -/
def loop_body {σ ι ε : Type} (check_pending_interrupt : σ → Option ι)
    (take_interrupt_trap : ι → σ → σ) (timer_increment : σ → σ)
    (tick : σ → σ × Except ε Nat) (take_exception_trap : ε → σ → σ × Trap)
    (s : σ) : σ × Trap :=
  match tick (timer_increment
      (interrupt_step check_pending_interrupt take_interrupt_trap s)) with
  | (s3, Except.ok _inst) => (s3, Trap.requested)
  | (s3, Except.error exception) => take_exception_trap exception s3

/-- The loop of `Emulator::start`, fuel-bounded (the source loop can run
forever; `none` means the fuel ran out).  Each iteration first increments the
cycle counter, then applies the literal test-mode check `is_test && count <
10000`, then runs the cycle body and stops on a fatal trap. -/
def start_loop {σ ι ε : Type} (is_test : Bool)
    (check_pending_interrupt : σ → Option ι)
    (take_interrupt_trap : ι → σ → σ) (timer_increment : σ → σ)
    (tick : σ → σ × Except ε Nat) (take_exception_trap : ε → σ → σ × Trap) :
    Nat → Nat → σ → Option σ
  | 0, _, _ => none
  | fuel + 1, count, s =>
    if is_test ∧ count + 1 < 10000 then some s
    else
      match loop_body check_pending_interrupt take_interrupt_trap
          timer_increment tick take_exception_trap s with
      | (s', Trap.fatal) => some s'
      | (s', _) => start_loop is_test check_pending_interrupt
          take_interrupt_trap timer_increment tick take_exception_trap
          fuel (count + 1) s'

/-- `Emulator::start`: run the loop from cycle counter 0. -/
def Emulator.start {σ ι ε : Type} (is_test : Bool)
    (check_pending_interrupt : σ → Option ι)
    (take_interrupt_trap : ι → σ → σ) (timer_increment : σ → σ)
    (tick : σ → σ × Except ε Nat) (take_exception_trap : ε → σ → σ × Trap)
    (fuel : Nat) (s : σ) : Option σ :=
  start_loop is_test check_pending_interrupt take_interrupt_trap
    timer_increment tick take_exception_trap fuel 0 s

/-- A driver-visible device operation for the notification trace property:
an MMIO register write or an `is_interrupting` poll. -/
inductive DevOp
  | wr (addr val : Nat)
  | query

/-- Run a sequence of device operations, returning the final device state
and the results of the polls in order. -/
def run_ops : Virtio → List DevOp → Virtio × List Bool
  | v, [] => (v, [])
  | v, DevOp.wr addr val :: ops => run_ops (v.write addr val) ops
  | v, DevOp.query :: ops =>
    let q := v.is_interrupting
    let r := run_ops q.2 ops
    (r.1, q.1 :: r.2)

/-- Whether a sequence of operations contains a Queue Notify write. -/
def has_notify_write (ops : List DevOp) : Bool :=
  ops.any fun op =>
    match op with
    | DevOp.wr addr _ => addr == VIRTIO_QUEUE_NOTIFY
    | DevOp.query => false

/-- The number of polls in a sequence of operations. -/
def num_queries (ops : List DevOp) : Nat :=
  ops.countP fun op =>
    match op with
    | DevOp.query => true
    | _ => false

/-- Claim C10: the sentinel 9999 is the initial notify-pending state, and
writing 9999 to the Queue Notify register leaves the device in the
no-notification state: `is_interrupting` returns false afterwards. -/
theorem c10_sentinel_notify :
    Virtio.new.queue_notify = 9999 ∧
    ∀ v : Virtio,
      (v.write VIRTIO_QUEUE_NOTIFY 9999).queue_notify = 9999 ∧
      ((v.write VIRTIO_QUEUE_NOTIFY 9999).is_interrupting).1 = false := by
  refine ⟨rfl, fun v => ?_⟩
  have h : (v.write VIRTIO_QUEUE_NOTIFY 9999).queue_notify = 9999 := by
    simp [Virtio.write, VIRTIO_BASE, VIRTIO_DEVICE_FEATURES,
      VIRTIO_GUEST_PAGE_SIZE, VIRTIO_QUEUE_SEL, VIRTIO_QUEUE_NUM,
      VIRTIO_QUEUE_PFN, VIRTIO_QUEUE_NOTIFY, VIRTIO_STATUS]
  exact ⟨h, by simp [Virtio.is_interrupting, h]⟩

/-- Claim C6 (code bug): per the spec the Driver Features register at
`+0x020` is read/write, but the source's write match has no arm for that
address (the write is a no-op) and instead stores driver features on a write
to the Device Features address `+0x010`, so the write-then-read round trip
fails at `+0x020`; it does hold for Queue PFN and Status. -/
theorem c6_driver_features_write_mismatch :
    Virtio.read (Virtio.write Virtio.new VIRTIO_DRIVER_FEATURES 1)
        VIRTIO_DRIVER_FEATURES = 0 ∧
    Virtio.write Virtio.new VIRTIO_DRIVER_FEATURES 1 = Virtio.new ∧
    Virtio.read (Virtio.write Virtio.new VIRTIO_DEVICE_FEATURES 1)
        VIRTIO_DRIVER_FEATURES = 1 ∧
    ∀ (v : Virtio) (val : Nat),
      Virtio.read (Virtio.write v VIRTIO_QUEUE_PFN val) VIRTIO_QUEUE_PFN = val ∧
      Virtio.read (Virtio.write v VIRTIO_STATUS val) VIRTIO_STATUS = val := by
  refine ⟨by decide, by decide, by decide, fun v val => ⟨?_, ?_⟩⟩ <;>
    simp [Virtio.read, Virtio.write, VIRTIO_BASE, VIRTIO_MAGIC,
      VIRTIO_VERSION, VIRTIO_DEVICE_ID, VIRTIO_VENDOR_ID,
      VIRTIO_DEVICE_FEATURES, VIRTIO_DRIVER_FEATURES, VIRTIO_GUEST_PAGE_SIZE,
      VIRTIO_QUEUE_SEL, VIRTIO_QUEUE_NUM_MAX, VIRTIO_QUEUE_NUM,
      VIRTIO_QUEUE_PFN, VIRTIO_QUEUE_NOTIFY, VIRTIO_STATUS]

/-- Claim C9: `read_disk` and `write_disk` panic (here: `none`) exactly when
the offset is at or beyond the backing-store length; below the length,
`read_disk` returns the byte stored at the offset and `write_disk` stores the
low byte of the value there. -/
theorem c9_disk_bounds :
    ∀ (disk : List Nat) (addr value : Nat),
      read_disk disk addr =
        (if h : addr < disk.length then some (disk.get ⟨addr, h⟩ % 256)
         else none) ∧
      write_disk disk addr value =
        (if addr < disk.length then some (disk.set addr (value % 256))
         else none) := by
  intro disk addr value
  constructor
  · by_cases h : addr < disk.length <;>
      simp [read_disk, h, List.getElem?_eq_getElem, List.getElem?_eq_none,
        Nat.le_of_not_lt]
  · rfl

/-- `disk_access` factors through the available-ring head selection described
by claim C4. -/
theorem disk_access_head (cpu : Cpu) :
    Virtio.disk_access cpu =
      match avail_head_index cpu.mem cpu.virtio.desc_addr with
      | none => (cpu, DResult.exception)
      | some index => rest_after_head cpu index := by
  unfold Virtio.disk_access avail_head_index rest_after_head
  rcases h1 : read16 cpu.mem ((cpu.virtio.desc_addr + 0x40 + 1) % W) with _ | off
  · simp [h1]
  · rcases h2 : read16 cpu.mem
        ((cpu.virtio.desc_addr + 0x40 + off % QUEUE_SIZE + 2) % W) with _ | idx
    · simp [h1, h2, QUEUE_SIZE]
    · simp [h1, h2, QUEUE_SIZE]

/-- `rest_after_head` factors through the two-descriptor header load
described by claim C3. -/
theorem rest_after_head_descs (cpu : Cpu) (index : Nat) :
    rest_after_head cpu index =
      match header_loads cpu.mem cpu.virtio.desc_addr index with
      | none => (cpu, DResult.exception)
      | some (_, d1, sector) => after_descs cpu d1 sector := by
  unfold rest_after_head header_loads after_descs
  simp only [VRING_DESC_SIZE]
  rcases h1 : VirtqDesc.new cpu.mem
      (cpu.virtio.desc_addr + 16 * index) with _ | d0
  · simp [h1]
  · rcases h2 : VirtqDesc.new cpu.mem
        (cpu.virtio.desc_addr + 16 * d0.next) with _ | d1
    · simp [h1, h2]
    · rcases h3 : read64 cpu.mem ((d0.addr + 8) % W) with _ | sector
      · simp [h1, h2, h3]
      · simp [h1, h2, h3]

/-- Claim C4: the head-descriptor index is selected exactly as the claim
describes — the 16-bit ring fill index is read at `avail_base + 1` (the
available ring begins 0x40 bytes after the descriptor table base), reduced
modulo the fixed queue size 8, and the 16-bit descriptor index is read at
`avail_base + (fill mod 8) + 2`, unscaled by the ring-entry size; the whole
transfer factors through this selection. -/
theorem c4_head_index_selection (cpu : Cpu) :
    Virtio.disk_access cpu =
      match avail_head_index cpu.mem cpu.virtio.desc_addr with
      | none => (cpu, DResult.exception)
      | some index => rest_after_head cpu index :=
  disk_access_head cpu

/-- Claim C3: with head-descriptor index `index`, `disk_access` loads exactly
two descriptors — descriptor 0 from the 16 bytes at
`desc_addr + 16 * index`, descriptor 1 at `desc_addr + 16 * desc0.next` —
reads the 64-bit sector at `desc0.addr + 8`, and follows no further chain
links: the transfer factors through `header_loads`. -/
theorem c3_two_descriptor_loads (cpu : Cpu) (index : Nat)
    (h : avail_head_index cpu.mem cpu.virtio.desc_addr = some index) :
    Virtio.disk_access cpu =
      match header_loads cpu.mem cpu.virtio.desc_addr index with
      | none => (cpu, DResult.exception)
      | some (_, d1, sector) => after_descs cpu d1 sector := by
  have h0 := disk_access_head cpu
  rw [h] at h0
  exact h0.trans (rest_after_head_descs cpu index)

/-- Witness for C3 at a concrete state: a 68-byte zero memory with PFN and
page size zero puts the descriptor table at 0 and selects head index 0. -/
theorem c3_two_descriptor_loads_witness :
    avail_head_index (List.replicate 68 0) (Cpu.mk (List.replicate 68 0) Virtio.new).virtio.desc_addr = some 0 ∧
    Virtio.disk_access (Cpu.mk (List.replicate 68 0) Virtio.new) =
      match header_loads (List.replicate 68 0)
          (Cpu.mk (List.replicate 68 0) Virtio.new).virtio.desc_addr 0 with
      | none => (Cpu.mk (List.replicate 68 0) Virtio.new, DResult.exception)
      | some (_, d1, sector) =>
        after_descs (Cpu.mk (List.replicate 68 0) Virtio.new) d1 sector :=
  ⟨by decide, c3_two_descriptor_loads (Cpu.mk (List.replicate 68 0) Virtio.new) 0 (by decide)⟩

/-- `disk_access` characterised through the claim-side head selection and
header loads: shared basis of the transfer-phase theorems. -/
theorem disk_access_char (cpu : Cpu) (index : Nat) (d0 d1 : VirtqDesc)
    (sector : Nat)
    (h1 : avail_head_index cpu.mem cpu.virtio.desc_addr = some index)
    (h2 : header_loads cpu.mem cpu.virtio.desc_addr index =
      some (d0, d1, sector)) :
    Virtio.disk_access cpu = after_descs cpu d1 sector := by
  have h0 := disk_access_head cpu
  rw [h1] at h0
  have h3 := rest_after_head_descs cpu index
  rw [h2] at h3
  exact h0.trans h3

/-- A successful single-byte bus read yields a byte value. -/
theorem read8_lt_256 {m : Mem} {a b : Nat} (h : read8 m a = some b) :
    b < 256 := by
  rcases hm : m[a]? with _ | x
  · simp [read8, hm] at h
  · simp [read8, hm] at h
    omega

/-- A successful disk read yields a byte value. -/
theorem read_disk_lt_256 {disk : List Nat} {a b : Nat}
    (h : read_disk disk a = some b) : b < 256 := by
  rcases hm : disk[a]? with _ | x
  · simp [read_disk, hm] at h
  · simp [read_disk, hm] at h
    omega

/-- Success characterisation of the guest-to-disk copy loop: with all
addresses below `W` (no 64-bit wrap), the loop copies byte `addr + k` of
guest memory to offset `sbase + k` of the backing store for every `k` in the
iteration range and leaves every other offset unchanged. -/
theorem disk_write_loop_ok (m : Mem) (addr sbase : Nat) :
    ∀ (rem i : Nat) (disk disk' : List Nat),
      addr + i + rem ≤ W → sbase + i + rem ≤ W →
      disk_write_loop m addr sbase disk i rem = (disk', DResult.ok) →
      disk'.length = disk.length ∧
      (∀ k, i ≤ k → k < i + rem → disk'[sbase + k]? = read8 m (addr + k)) ∧
      (∀ j, (j < sbase + i ∨ sbase + i + rem ≤ j) → disk'[j]? = disk[j]?) := by
  intro rem
  induction rem with
  | zero =>
    intro i disk disk' _ _ h
    simp only [disk_write_loop, Prod.mk.injEq] at h
    refine ⟨by rw [h.1], fun k hk hk' => absurd hk' (by omega), fun j _ => by rw [h.1]⟩
  | succ rem ih =>
    intro i disk disk' ha hs h
    rw [disk_write_loop] at h
    rcases hr : read8 m ((addr + i) % W) with _ | data
    · simp only [hr] at h
      simp at h
    · simp only [hr] at h
      rcases hw : write_disk disk ((sbase + i) % W) data with _ | disk1
      · simp only [hw] at h
        simp at h
      · simp only [hw] at h
        have hai : (addr + i) % W = addr + i := Nat.mod_eq_of_lt (by omega)
        have hsi : (sbase + i) % W = sbase + i := Nat.mod_eq_of_lt (by omega)
        rw [hsi] at hw
        obtain ⟨hlen, hmid, hout⟩ := ih (i + 1) disk1 disk' (by omega) (by omega) h
        have hlt : sbase + i < disk.length := by
          by_contra hc
          simp [write_disk, hc] at hw
        have hd1 : disk1 = disk.set (sbase + i) (data % 256) := by
          simp [write_disk, hlt] at hw
          exact hw.symm
        have hdata : data % 256 = data := Nat.mod_eq_of_lt (read8_lt_256 (hai ▸ hr))
        refine ⟨by rw [hlen, hd1, List.length_set], fun k hk hk' => ?_, fun j hj => ?_⟩
        · rcases Nat.eq_or_lt_of_le hk with rfl | hk1
          · have h1 : disk'[sbase + i]? = disk1[sbase + i]? :=
              hout (sbase + i) (Or.inl (by omega))
            have h2 : disk1[sbase + i]? = some data := by
              rw [hd1, List.getElem?_set_self hlt, hdata]
            rw [h1, h2, ← hai, hr]
          · exact hmid k hk1 (by omega)
        · have h1 : disk'[j]? = disk1[j]? := by
            refine hout j ?_
            rcases hj with hj | hj
            · exact Or.inl (by omega)
            · exact Or.inr (by omega)
          have h2 : disk1[j]? = disk[j]? := by
            rw [hd1]
            exact List.getElem?_set_ne (by omega)
          rw [h1, h2]

/-- Success characterisation of the disk-to-guest copy loop: with all
addresses below `W`, the loop copies offset `sbase + k` of the backing store
to byte `addr + k` of guest memory for every `k` in the iteration range and
leaves every other guest byte unchanged. -/
theorem disk_read_loop_ok (disk : List Nat) (addr sbase : Nat) :
    ∀ (rem i : Nat) (m m' : Mem),
      addr + i + rem ≤ W → sbase + i + rem ≤ W →
      disk_read_loop disk addr sbase m i rem = (m', DResult.ok) →
      m'.length = m.length ∧
      (∀ k, i ≤ k → k < i + rem →
        read8 m' (addr + k) = read_disk disk (sbase + k)) ∧
      (∀ j, (j < addr + i ∨ addr + i + rem ≤ j) → m'[j]? = m[j]?) := by
  intro rem
  induction rem with
  | zero =>
    intro i m m' _ _ h
    simp only [disk_read_loop, Prod.mk.injEq] at h
    refine ⟨by rw [h.1], fun k hk hk' => absurd hk' (by omega), fun j _ => by rw [h.1]⟩
  | succ rem ih =>
    intro i m m' ha hs h
    rw [disk_read_loop] at h
    rcases hr : read_disk disk ((sbase + i) % W) with _ | data
    · simp only [hr] at h
      simp at h
    · simp only [hr] at h
      rcases hw : write8 m ((addr + i) % W) data with _ | m1
      · simp only [hw] at h
        simp at h
      · simp only [hw] at h
        have hai : (addr + i) % W = addr + i := Nat.mod_eq_of_lt (by omega)
        have hsi : (sbase + i) % W = sbase + i := Nat.mod_eq_of_lt (by omega)
        rw [hai] at hw
        obtain ⟨hlen, hmid, hout⟩ := ih (i + 1) m1 m' (by omega) (by omega) h
        have hlt : addr + i < m.length := by
          by_contra hc
          simp [write8, hc] at hw
        have hm1 : m1 = m.set (addr + i) (data % 256) := by
          simp [write8, hlt] at hw
          exact hw.symm
        have hdata : data % 256 = data := Nat.mod_eq_of_lt (read_disk_lt_256 (hsi ▸ hr))
        refine ⟨by rw [hlen, hm1, List.length_set], fun k hk hk' => ?_, fun j hj => ?_⟩
        · rcases Nat.eq_or_lt_of_le hk with rfl | hk1
          · have h1 : m'[addr + i]? = m1[addr + i]? :=
              hout (addr + i) (Or.inl (by omega))
            have h2 : m1[addr + i]? = some data := by
              rw [hm1, List.getElem?_set_self hlt, hdata]
            have h3 : read8 m' (addr + i) = some (data % 256) := by
              simp [read8, h1, h2]
            rw [h3, hdata, ← hsi, hr]
          · exact hmid k hk1 (by omega)
        · have h1 : m'[j]? = m1[j]? := by
            refine hout j ?_
            rcases hj with hj | hj
            · exact Or.inl (by omega)
            · exact Or.inr (by omega)
          have h2 : m1[j]? = m[j]? := by
            rw [hm1]
            exact List.getElem?_set_ne (by omega)
          rw [h1, h2]

/-- `after_descs` in the guest-to-disk direction (flags bit 1 clear): run the
write loop, then on success advance the id and the used ring. -/
theorem after_descs_write (cpu : Cpu) (d1 : VirtqDesc) (sector : Nat)
    (hf : d1.flags &&& 2 = 0) :
    after_descs cpu d1 sector =
      match disk_write_loop cpu.mem d1.addr (sector * SECTOR_SIZE)
          cpu.virtio.disk 0 d1.len with
      | (dk, DResult.ok) =>
        (match write16 cpu.mem (cpu.virtio.desc_addr + 4096 + 2)
            ((cpu.virtio.id + 1) % W % 8) with
         | none =>
           (Cpu.mk cpu.mem
             { cpu.virtio with disk := dk, id := (cpu.virtio.id + 1) % W },
             DResult.exception)
         | some m1 =>
           (Cpu.mk m1
             { cpu.virtio with disk := dk, id := (cpu.virtio.id + 1) % W },
             DResult.ok))
      | (dk, r) => (Cpu.mk cpu.mem { cpu.virtio with disk := dk }, r) := by
  unfold after_descs
  rcases hg : disk_write_loop cpu.mem d1.addr (sector * SECTOR_SIZE)
      cpu.virtio.disk 0 d1.len with ⟨dk, r⟩
  simp only [hf, if_pos, hg]
  cases r <;> rfl

/-- `after_descs` in the disk-to-guest direction (flags bit 1 set): run the
read loop, then on success advance the id and the used ring. -/
theorem after_descs_read (cpu : Cpu) (d1 : VirtqDesc) (sector : Nat)
    (hf : ¬ d1.flags &&& 2 = 0) :
    after_descs cpu d1 sector =
      match disk_read_loop cpu.virtio.disk d1.addr (sector * SECTOR_SIZE)
          cpu.mem 0 d1.len with
      | (m', DResult.ok) =>
        (match write16 m' (cpu.virtio.desc_addr + 4096 + 2)
            ((cpu.virtio.id + 1) % W % 8) with
         | none =>
           (Cpu.mk m' { cpu.virtio with id := (cpu.virtio.id + 1) % W },
             DResult.exception)
         | some m1 =>
           (Cpu.mk m1 { cpu.virtio with id := (cpu.virtio.id + 1) % W },
             DResult.ok))
      | (m', r) => (Cpu.mk m' cpu.virtio, r) := by
  unfold after_descs
  rcases hg : disk_read_loop cpu.virtio.disk d1.addr (sector * SECTOR_SIZE)
      cpu.mem 0 d1.len with ⟨m', r⟩
  simp only [hf, if_neg, hg]
  cases r <;> rfl

/-- On a successful guest-to-disk transfer, the copy loop and the used-ring
write both succeeded and the final state is explicit. -/
theorem after_descs_write_ok (cpu : Cpu) (d1 : VirtqDesc) (sector : Nat)
    (hf : d1.flags &&& 2 = 0)
    (hok : (after_descs cpu d1 sector).2 = DResult.ok) :
    ∃ dk m1,
      disk_write_loop cpu.mem d1.addr (sector * SECTOR_SIZE)
          cpu.virtio.disk 0 d1.len = (dk, DResult.ok) ∧
      write16 cpu.mem (cpu.virtio.desc_addr + 4096 + 2)
          ((cpu.virtio.id + 1) % W % 8) = some m1 ∧
      after_descs cpu d1 sector =
        (Cpu.mk m1
          { cpu.virtio with disk := dk, id := (cpu.virtio.id + 1) % W },
          DResult.ok) := by
  rw [after_descs_write cpu d1 sector hf] at hok ⊢
  rcases hg : disk_write_loop cpu.mem d1.addr (sector * SECTOR_SIZE)
      cpu.virtio.disk 0 d1.len with ⟨dk, r⟩
  rw [hg] at hok
  cases r with
  | ok =>
    rcases hw : write16 cpu.mem (cpu.virtio.desc_addr + 4096 + 2)
        ((cpu.virtio.id + 1) % W % 8) with _ | m1
    · rw [hw] at hok
      simp at hok
    · exact ⟨dk, m1, rfl, rfl, rfl⟩
  | exception => simp at hok
  | panic => simp at hok

/-- On a successful disk-to-guest transfer, the copy loop and the used-ring
write both succeeded and the final state is explicit. -/
theorem after_descs_read_ok (cpu : Cpu) (d1 : VirtqDesc) (sector : Nat)
    (hf : ¬ d1.flags &&& 2 = 0)
    (hok : (after_descs cpu d1 sector).2 = DResult.ok) :
    ∃ m' m1,
      disk_read_loop cpu.virtio.disk d1.addr (sector * SECTOR_SIZE)
          cpu.mem 0 d1.len = (m', DResult.ok) ∧
      write16 m' (cpu.virtio.desc_addr + 4096 + 2)
          ((cpu.virtio.id + 1) % W % 8) = some m1 ∧
      after_descs cpu d1 sector =
        (Cpu.mk m1 { cpu.virtio with id := (cpu.virtio.id + 1) % W },
          DResult.ok) := by
  rw [after_descs_read cpu d1 sector hf] at hok ⊢
  rcases hg : disk_read_loop cpu.virtio.disk d1.addr (sector * SECTOR_SIZE)
      cpu.mem 0 d1.len with ⟨m', r⟩
  rw [hg] at hok
  cases r with
  | ok =>
    rcases hw : write16 m' (cpu.virtio.desc_addr + 4096 + 2)
        ((cpu.virtio.id + 1) % W % 8) with _ | m1
    · simp [hw] at hok
    · exact ⟨m', m1, rfl, hw, by simp [hw]⟩
  | exception => simp at hok
  | panic => simp at hok

/-- Unfolding of a successful two-byte bus write. -/
theorem write16_eq {m m' : Mem} {a v : Nat} (h : write16 m a v = some m') :
    a + 1 < m.length ∧
    m' = (m.set a (v % 256)).set (a + 1) (v / 2 ^ 8 % 256) := by
  unfold write16 at h
  split at h
  · exact ⟨by assumption, (Option.some.inj h).symm⟩
  · cases h

/-- A successful two-byte write of a byte-sized value stores the value and a
zero high byte and changes nothing else. -/
theorem write16_read_bytes {m m' : Mem} {a v : Nat}
    (h : write16 m a v = some m') (hv : v < 256) :
    read8 m' a = some v ∧ read8 m' (a + 1) = some 0 ∧
    ∀ j, j ≠ a → j ≠ a + 1 → m'[j]? = m[j]? := by
  obtain ⟨hlt, rfl⟩ := write16_eq h
  have hv' : v % 256 = v := Nat.mod_eq_of_lt hv
  have h0 : v / 2 ^ 8 % 256 = 0 := by
    have h256 : (2 : Nat) ^ 8 = 256 := by norm_num
    rw [h256]
    omega
  rw [hv', h0]
  refine ⟨?_, ?_, ?_⟩
  · have h1 : ((m.set a v).set (a + 1) 0)[a]? = some v := by
      rw [List.getElem?_set_ne (by omega), List.getElem?_set_self (by omega)]
    simp [read8, h1, hv']
  · have h1 : ((m.set a v).set (a + 1) 0)[a + 1]? = some 0 := by
      rw [List.getElem?_set_self (by simp [List.length_set]; omega)]
    simp [read8, h1]
  · intro j hj hj2
    rw [List.getElem?_set_ne (by omega), List.getElem?_set_ne (by omega)]

/-- Claim C2: the copy direction is decided by bit 1 of the data
descriptor's flags.  If it is clear, a successful `disk_access` copies
`desc1.len` bytes from guest memory at `desc1.addr` into the backing store
at byte offset `sector * 512`, leaving every other disk byte and the store
length unchanged; if it is set, it copies the same byte range from the
backing store into guest memory at `desc1.addr` (every copied byte outside
the two used-ring bytes written afterwards), leaving the backing store
unchanged.  The bounds hypotheses rule out 64-bit address wrap-around. -/
theorem c2_copy_direction_fidelity (cpu : Cpu) (index : Nat)
    (d0 d1 : VirtqDesc) (sector : Nat)
    (h1 : avail_head_index cpu.mem cpu.virtio.desc_addr = some index)
    (h2 : header_loads cpu.mem cpu.virtio.desc_addr index =
      some (d0, d1, sector))
    (hb1 : d1.addr + d1.len ≤ W) (hb2 : sector * 512 + d1.len ≤ W)
    (hok : (Virtio.disk_access cpu).2 = DResult.ok) :
    (d1.flags &&& 2 = 0 →
      (Virtio.disk_access cpu).1.virtio.disk.length =
        cpu.virtio.disk.length ∧
      (∀ k, k < d1.len →
        ((Virtio.disk_access cpu).1.virtio.disk)[sector * 512 + k]? =
          read8 cpu.mem (d1.addr + k)) ∧
      (∀ j, (j < sector * 512 ∨ sector * 512 + d1.len ≤ j) →
        ((Virtio.disk_access cpu).1.virtio.disk)[j]? =
          cpu.virtio.disk[j]?)) ∧
    (¬ d1.flags &&& 2 = 0 →
      (Virtio.disk_access cpu).1.virtio.disk = cpu.virtio.disk ∧
      (∀ k, k < d1.len →
        d1.addr + k ≠ cpu.virtio.desc_addr + 4096 + 2 →
        d1.addr + k ≠ cpu.virtio.desc_addr + 4096 + 3 →
        read8 (Virtio.disk_access cpu).1.mem (d1.addr + k) =
          read_disk cpu.virtio.disk (sector * 512 + k))) := by
  have hS : SECTOR_SIZE = 512 := rfl
  have hc := disk_access_char cpu index d0 d1 sector h1 h2
  rw [hc] at hok ⊢
  constructor
  · intro hf
    obtain ⟨dk, m1, hg, hw, hres⟩ := after_descs_write_ok cpu d1 sector hf hok
    rw [hS] at hg
    rw [hres]
    obtain ⟨hlen, hmid, hout⟩ :=
      disk_write_loop_ok cpu.mem d1.addr (sector * 512) d1.len 0
        cpu.virtio.disk dk (by omega) (by omega) hg
    refine ⟨hlen, fun k hk => ?_, fun j hj => ?_⟩
    · exact hmid k (Nat.zero_le k) (by omega)
    · exact hout j (by omega)
  · intro hf
    obtain ⟨m', m1, hg, hw, hres⟩ := after_descs_read_ok cpu d1 sector hf hok
    rw [hS] at hg
    rw [hres]
    obtain ⟨hlen, hmid, hout⟩ :=
      disk_read_loop_ok cpu.virtio.disk d1.addr (sector * 512) d1.len 0
        cpu.mem m' (by omega) (by omega) hg
    have hv : (cpu.virtio.id + 1) % W % 8 < 256 := by omega
    obtain ⟨hu2, hu3, hfr⟩ := write16_read_bytes hw hv
    refine ⟨rfl, fun k hk hne2 hne3 => ?_⟩
    have hfrk := hfr (d1.addr + k) hne2 (by omega)
    have hread : read8 m1 (d1.addr + k) = read8 m' (d1.addr + k) := by
      simp [read8, hfrk]
    rw [hread]
    exact hmid k (Nat.zero_le k) (by omega)

/-- Length of the concrete guest memory. -/
theorem mem0_length : mem0.length = 4100 := by
  unfold mem0
  rw [List.length_set, List.length_set, List.length_set, List.length_set,
    List.length_set, List.length_set, List.length_replicate]

/-- The used-ring write of the concrete scenario succeeds. -/
theorem write16_mem0 :
    write16 mem0 4098 1 = some ((mem0.set 4098 1).set 4099 0) := by
  simp [write16, mem0_length]

set_option maxRecDepth 8000 in
/-- The concrete transfer succeeds end to end. -/
theorem cpu0_access_ok : (Virtio.disk_access cpu0).2 = DResult.ok := by
  rw [disk_access_char cpu0 0 d0c d1c 0 (by decide) (by decide)]
  rw [after_descs_write cpu0 d1c 0 (by decide)]
  have hg : disk_write_loop cpu0.mem d1c.addr (0 * SECTOR_SIZE)
      cpu0.virtio.disk 0 d1c.len = ([171, 205, 7, 7], DResult.ok) := by
    decide
  rw [hg]
  have hcm : cpu0.mem = mem0 := rfl
  have haddr : cpu0.virtio.desc_addr + 4096 + 2 = 4098 := by decide
  have harg : (cpu0.virtio.id + 1) % W % 8 = 1 := by decide
  rw [hcm, haddr, harg, write16_mem0]

set_option maxRecDepth 8000 in
/-- Witness for C2: on the concrete state, byte 0 of the backing store after
the transfer equals guest byte 200. -/
theorem c2_copy_direction_fidelity_witness :
    ((Virtio.disk_access cpu0).1.virtio.disk)[0 * 512 + 0]? =
      read8 cpu0.mem (200 + 0) :=
  ((c2_copy_direction_fidelity cpu0 0 d0c d1c 0
    (by decide) (by decide) (by decide) (by decide) cpu0_access_ok).1
    (by decide)).2.1 0 (by decide)

/-- Claim C5: a successful transfer increments the request id by exactly 1
with wrapping 64-bit arithmetic, writes `id mod 8` as a 16-bit value (low
byte `id mod 8`, high byte 0) at used-ring offset 2, and writes nothing else
to guest memory beyond the data range of a disk-to-guest copy; hence over
repeated invocations the ids increase monotonically mod `2 ^ 64` and the
written field cycles through the residues 0–7. -/
theorem c5_used_ring_id (cpu : Cpu) (index : Nat) (d0 d1 : VirtqDesc)
    (sector : Nat)
    (h1 : avail_head_index cpu.mem cpu.virtio.desc_addr = some index)
    (h2 : header_loads cpu.mem cpu.virtio.desc_addr index =
      some (d0, d1, sector))
    (hb1 : d1.addr + d1.len ≤ W) (hb2 : sector * 512 + d1.len ≤ W)
    (hok : (Virtio.disk_access cpu).2 = DResult.ok) :
    (Virtio.disk_access cpu).1.virtio.id = (cpu.virtio.id + 1) % W ∧
    read8 (Virtio.disk_access cpu).1.mem (cpu.virtio.desc_addr + 4096 + 2) =
      some ((cpu.virtio.id + 1) % W % 8) ∧
    read8 (Virtio.disk_access cpu).1.mem (cpu.virtio.desc_addr + 4096 + 3) =
      some 0 ∧
    (d1.flags &&& 2 = 0 →
      ∀ j, j ≠ cpu.virtio.desc_addr + 4096 + 2 →
        j ≠ cpu.virtio.desc_addr + 4096 + 3 →
        ((Virtio.disk_access cpu).1.mem)[j]? = cpu.mem[j]?) ∧
    (¬ d1.flags &&& 2 = 0 →
      ∀ j, j ≠ cpu.virtio.desc_addr + 4096 + 2 →
        j ≠ cpu.virtio.desc_addr + 4096 + 3 →
        (j < d1.addr ∨ d1.addr + d1.len ≤ j) →
        ((Virtio.disk_access cpu).1.mem)[j]? = cpu.mem[j]?) := by
  have hS : SECTOR_SIZE = 512 := rfl
  have hc := disk_access_char cpu index d0 d1 sector h1 h2
  rw [hc] at hok ⊢
  have hv : (cpu.virtio.id + 1) % W % 8 < 256 := by omega
  have h23 : cpu.virtio.desc_addr + 4096 + 2 + 1 =
      cpu.virtio.desc_addr + 4096 + 3 := by omega
  by_cases hf : d1.flags &&& 2 = 0
  · obtain ⟨dk, m1, hg, hw, hres⟩ := after_descs_write_ok cpu d1 sector hf hok
    rw [hres]
    obtain ⟨hu2, hu3, hfr⟩ := write16_read_bytes hw hv
    rw [h23] at hu3
    exact ⟨rfl, hu2, hu3, fun _ j hj2 hj3 => hfr j hj2 (by omega),
      fun hnf => absurd hf hnf⟩
  · obtain ⟨m', m1, hg, hw, hres⟩ := after_descs_read_ok cpu d1 sector hf hok
    rw [hS] at hg
    rw [hres]
    obtain ⟨hlen, hmid, hout⟩ :=
      disk_read_loop_ok cpu.virtio.disk d1.addr (sector * 512) d1.len 0
        cpu.mem m' (by omega) (by omega) hg
    obtain ⟨hu2, hu3, hfr⟩ := write16_read_bytes hw hv
    rw [h23] at hu3
    refine ⟨rfl, hu2, hu3, fun hf0 => absurd hf0 hf,
      fun _ j hj2 hj3 hjr => ?_⟩
    rw [hfr j hj2 (by omega)]
    exact hout j (by omega)

/-- Witness for C5: on the concrete state, the id advances from 0 to 1 and
the used-ring field holds 1. -/
theorem c5_used_ring_id_witness :
    (Virtio.disk_access cpu0).1.virtio.id = (cpu0.virtio.id + 1) % W ∧
    read8 (Virtio.disk_access cpu0).1.mem
      (cpu0.virtio.desc_addr + 4096 + 2) =
      some ((cpu0.virtio.id + 1) % W % 8) :=
  have h := c5_used_ring_id cpu0 0 d0c d1c 0
    (by decide) (by decide) (by decide) (by decide) cpu0_access_ok
  ⟨h.1, h.2.1⟩

/-- Claim C8: with the test flag set, the run loop terminates as soon as the
incremented cycle counter (1) is still below 10000: `start` in test mode
returns during the first cycle with the processor state untouched — the
returned state is the input state for arbitrary interrupt, timer and tick
functions, so no interrupt delivery, timer tick or instruction step of that
cycle is performed. -/
theorem c8_test_mode_early_return {σ ι ε : Type}
    (check_pending_interrupt : σ → Option ι)
    (take_interrupt_trap : ι → σ → σ) (timer_increment : σ → σ)
    (tick : σ → σ × Except ε Nat) (take_exception_trap : ε → σ → σ × Trap)
    (fuel : Nat) (s : σ) :
    Emulator.start true check_pending_interrupt take_interrupt_trap
      timer_increment tick take_exception_trap (fuel + 1) s = some s := by
  unfold Emulator.start start_loop
  simp

/-- Claim C7: every failing guest-memory access aborts the transfer at the
failing access with an `exception` result and no subsequent writes — (i) a
failing available-ring read leaves the state untouched, (ii) so does a
failing descriptor-field or sector read, (iii)/(iv) a failing per-byte data
access keeps only the bytes copied before it, does not advance the id and
does not touch the used ring, (v) a failing used-ring write keeps the copy
and the id increment but no memory write, and (vi) the execution loop
converts a tick exception through the trap-taking mechanism instead of
dropping it. -/
theorem c7_fault_propagation :
    (∀ cpu : Cpu, avail_head_index cpu.mem cpu.virtio.desc_addr = none →
      Virtio.disk_access cpu = (cpu, DResult.exception)) ∧
    (∀ (cpu : Cpu) (index : Nat),
      avail_head_index cpu.mem cpu.virtio.desc_addr = some index →
      header_loads cpu.mem cpu.virtio.desc_addr index = none →
      Virtio.disk_access cpu = (cpu, DResult.exception)) ∧
    (∀ (cpu : Cpu) (index : Nat) (d0 d1 : VirtqDesc) (sector : Nat),
      avail_head_index cpu.mem cpu.virtio.desc_addr = some index →
      header_loads cpu.mem cpu.virtio.desc_addr index =
        some (d0, d1, sector) →
      d1.flags &&& 2 = 0 →
      (disk_write_loop cpu.mem d1.addr (sector * SECTOR_SIZE)
        cpu.virtio.disk 0 d1.len).2 ≠ DResult.ok →
      Virtio.disk_access cpu =
        (Cpu.mk cpu.mem
          { cpu.virtio with
            disk := (disk_write_loop cpu.mem d1.addr (sector * SECTOR_SIZE)
              cpu.virtio.disk 0 d1.len).1 },
          (disk_write_loop cpu.mem d1.addr (sector * SECTOR_SIZE)
            cpu.virtio.disk 0 d1.len).2)) ∧
    (∀ (cpu : Cpu) (index : Nat) (d0 d1 : VirtqDesc) (sector : Nat),
      avail_head_index cpu.mem cpu.virtio.desc_addr = some index →
      header_loads cpu.mem cpu.virtio.desc_addr index =
        some (d0, d1, sector) →
      ¬ d1.flags &&& 2 = 0 →
      (disk_read_loop cpu.virtio.disk d1.addr (sector * SECTOR_SIZE)
        cpu.mem 0 d1.len).2 ≠ DResult.ok →
      Virtio.disk_access cpu =
        (Cpu.mk (disk_read_loop cpu.virtio.disk d1.addr
            (sector * SECTOR_SIZE) cpu.mem 0 d1.len).1 cpu.virtio,
          (disk_read_loop cpu.virtio.disk d1.addr (sector * SECTOR_SIZE)
            cpu.mem 0 d1.len).2)) ∧
    (∀ (cpu : Cpu) (index : Nat) (d0 d1 : VirtqDesc) (sector : Nat)
      (dk : List Nat),
      avail_head_index cpu.mem cpu.virtio.desc_addr = some index →
      header_loads cpu.mem cpu.virtio.desc_addr index =
        some (d0, d1, sector) →
      d1.flags &&& 2 = 0 →
      disk_write_loop cpu.mem d1.addr (sector * SECTOR_SIZE)
        cpu.virtio.disk 0 d1.len = (dk, DResult.ok) →
      write16 cpu.mem (cpu.virtio.desc_addr + 4096 + 2)
        ((cpu.virtio.id + 1) % W % 8) = none →
      Virtio.disk_access cpu =
        (Cpu.mk cpu.mem
          { cpu.virtio with disk := dk, id := (cpu.virtio.id + 1) % W },
          DResult.exception)) ∧
    (∀ (σ ι ε : Type) (check_pending_interrupt : σ → Option ι)
      (take_interrupt_trap : ι → σ → σ) (timer_increment : σ → σ)
      (tick : σ → σ × Except ε Nat)
      (take_exception_trap : ε → σ → σ × Trap) (s s3 : σ) (e : ε),
      tick (timer_increment (interrupt_step check_pending_interrupt
        take_interrupt_trap s)) = (s3, Except.error e) →
      loop_body check_pending_interrupt take_interrupt_trap timer_increment
        tick take_exception_trap s = take_exception_trap e s3) := by
  refine ⟨?_, ?_, ?_, ?_, ?_, ?_⟩
  · intro cpu h
    have h0 := disk_access_head cpu
    rw [h] at h0
    exact h0
  · intro cpu index ha hh
    have h0 := disk_access_head cpu
    rw [ha] at h0
    have h3 := rest_after_head_descs cpu index
    rw [hh] at h3
    exact h0.trans h3
  · intro cpu index d0 d1 sector ha hh hf hne
    rw [disk_access_char cpu index d0 d1 sector ha hh,
      after_descs_write cpu d1 sector hf]
    rcases hg : disk_write_loop cpu.mem d1.addr (sector * SECTOR_SIZE)
        cpu.virtio.disk 0 d1.len with ⟨dk, r⟩
    rw [hg] at hne
    cases r with
    | ok => exact absurd rfl hne
    | exception => rfl
    | panic => rfl
  · intro cpu index d0 d1 sector ha hh hf hne
    rw [disk_access_char cpu index d0 d1 sector ha hh,
      after_descs_read cpu d1 sector hf]
    rcases hg : disk_read_loop cpu.virtio.disk d1.addr (sector * SECTOR_SIZE)
        cpu.mem 0 d1.len with ⟨m', r⟩
    rw [hg] at hne
    cases r with
    | ok => exact absurd rfl hne
    | exception => rfl
    | panic => rfl
  · intro cpu index d0 d1 sector dk ha hh hf hg hw
    rw [disk_access_char cpu index d0 d1 sector ha hh,
      after_descs_write cpu d1 sector hf, hg, hw]
  · intro σ ι ε check_pending_interrupt take_interrupt_trap timer_increment
      tick take_exception_trap s s3 e h
    unfold loop_body
    rw [h]

/-- Witness for C7: with empty guest memory the first available-ring read
faults and the transfer aborts with the state untouched; the loop body of a
concrete one-state machine whose tick fails converts the exception to the
fatal trap. -/
theorem c7_fault_propagation_witness :
    Virtio.disk_access (Cpu.mk [] Virtio.new) =
      (Cpu.mk [] Virtio.new, DResult.exception) ∧
    loop_body (fun _ : Unit => (none : Option Unit)) (fun _ s => s)
      (fun s => s) (fun s => (s, Except.error 0))
      (fun (_ : Nat) s => (s, Trap.fatal)) () = ((), Trap.fatal) :=
  ⟨c7_fault_propagation.1 (Cpu.mk [] Virtio.new) (by decide),
    c7_fault_propagation.2.2.2.2.2 Unit Unit Nat
      (fun _ => none) (fun _ s => s) (fun s => s)
      (fun s => (s, Except.error 0)) (fun _ s => (s, Trap.fatal)) () () 0 rfl⟩

/-- A register write to any address other than Queue Notify leaves the
notify-pending indicator unchanged. -/
theorem write_queue_notify_ne (v : Virtio) (addr val : Nat)
    (h : addr ≠ VIRTIO_QUEUE_NOTIFY) :
    (v.write addr val).queue_notify = v.queue_notify := by
  unfold Virtio.write
  split_ifs <;> simp_all

/-- A Queue Notify write stores the written value in the pending
indicator. -/
theorem write_queue_notify (v : Virtio) (val : Nat) :
    (v.write VIRTIO_QUEUE_NOTIFY val).queue_notify = val := by
  simp [Virtio.write, VIRTIO_BASE, VIRTIO_DEVICE_FEATURES,
    VIRTIO_GUEST_PAGE_SIZE, VIRTIO_QUEUE_SEL, VIRTIO_QUEUE_NUM,
    VIRTIO_QUEUE_PFN, VIRTIO_QUEUE_NOTIFY, VIRTIO_STATUS]

/-- Starting from the no-notification state, a notify-free operation
sequence yields only `false` poll results and ends in the no-notification
state. -/
theorem run_ops_quiescent : ∀ (ops : List DevOp) (v : Virtio),
    v.queue_notify = 9999 → has_notify_write ops = false →
    (run_ops v ops).2 = List.replicate (num_queries ops) false ∧
    (run_ops v ops).1.queue_notify = 9999 := by
  intro ops
  induction ops with
  | nil => exact fun v h _ => ⟨rfl, h⟩
  | cons op ops ih =>
    intro v hq hw
    cases op with
    | wr addr val =>
      have hna : (addr == VIRTIO_QUEUE_NOTIFY) = false ∧
          has_notify_write ops = false := by
        simpa [has_notify_write] using hw
      have hna1 : addr ≠ VIRTIO_QUEUE_NOTIFY := by
        simpa using hna.1
      have hqn : (v.write addr val).queue_notify = 9999 := by
        rw [write_queue_notify_ne v addr val hna1, hq]
      have h := ih (v.write addr val) hqn hna.2
      simpa [run_ops, num_queries, List.countP_cons] using h
    | query =>
      have hq' : v.is_interrupting = (false, v) := by
        simp [Virtio.is_interrupting, hq]
      have hw' : has_notify_write ops = false := by
        simpa [has_notify_write] using hw
      have h := ih v hq hw'
      refine ⟨?_, ?_⟩
      · show (run_ops v (DevOp.query :: ops)).2 = _
        rw [run_ops, hq']
        simp [num_queries, List.countP_cons, List.replicate_succ, h.1]
      · show (run_ops v (DevOp.query :: ops)).1.queue_notify = 9999
        rw [run_ops, hq']
        exact h.2

/-- Counterexample to C1 as stated: the claim quantifies over all 32-bit
notify values, but after writing the sentinel value 9999 to the Queue Notify
register the next `is_interrupting` call returns false, not true. -/
theorem c1_counterexample :
    ((Virtio.new.write VIRTIO_QUEUE_NOTIFY 9999).is_interrupting).1 =
      false := by
  decide

/-- Claim C1 (amended: the notify value 9999 — the sentinel — is excluded):
after a Queue Notify write of any other value, the next `is_interrupting`
call returns true and clears the pending indicator back to the sentinel, and
every subsequent call returns false as long as no further Queue Notify write
occurs, so at most one true is observed per notify write. -/
theorem c1_notify_edge_trigger (v : Virtio) (val : Nat) (ops : List DevOp)
    (hval : val ≠ 9999) (hops : has_notify_write ops = false) :
    (run_ops (v.write VIRTIO_QUEUE_NOTIFY val) (DevOp.query :: ops)).2 =
      true :: List.replicate (num_queries ops) false ∧
    ((v.write VIRTIO_QUEUE_NOTIFY val).is_interrupting).2.queue_notify =
      9999 := by
  have h1 : (v.write VIRTIO_QUEUE_NOTIFY val).queue_notify = val :=
    write_queue_notify v val
  have h2 : (v.write VIRTIO_QUEUE_NOTIFY val).is_interrupting =
      (true, { v.write VIRTIO_QUEUE_NOTIFY val with queue_notify := 9999 }) := by
    simp [Virtio.is_interrupting, h1, hval]
  have h3 := run_ops_quiescent ops
    { v.write VIRTIO_QUEUE_NOTIFY val with queue_notify := 9999 }
    (by simp) hops
  constructor
  · show (run_ops (v.write VIRTIO_QUEUE_NOTIFY val)
      (DevOp.query :: ops)).2 = _
    rw [run_ops, h2]
    simp [h3.1]
  · rw [h2]

/-- Witness for the amended C1: a notify write of 0 followed by one poll, a
status write and two more polls observes exactly `true, false, false`. -/
theorem c1_notify_edge_trigger_witness :
    (run_ops (Virtio.new.write VIRTIO_QUEUE_NOTIFY 0)
      (DevOp.query :: [DevOp.wr VIRTIO_STATUS 5, DevOp.query,
        DevOp.query])).2 =
      true :: List.replicate
        (num_queries [DevOp.wr VIRTIO_STATUS 5, DevOp.query,
          DevOp.query]) false ∧
    ((Virtio.new.write VIRTIO_QUEUE_NOTIFY 0).is_interrupting).2.queue_notify =
      9999 :=
  c1_notify_edge_trigger Virtio.new 0
    [DevOp.wr VIRTIO_STATUS 5, DevOp.query, DevOp.query]
    (by decide) (by decide)
